import Mathlib

set_option maxRecDepth 4000

/-!
Verification development for pep8.py (devtools/pep8), a line-based Python
style checker.  Strings are modelled as `List Char`; the Python functions
`mute_line`, `Checker.check_logical`, `Checker.check_all`,
`Checker.report_error`, `find_checks`, `Checker.run_check`, the check
functions themselves and the per-file driver are embedded as executable
definitions below.  The stdlib tokenizer is an external collaborator: its
outcome (a token list, or a lexical error) is supplied as input, mirroring
`tokenize.generate_tokens`.
-/

/-- Convert a string literal to the `List Char` representation used throughout. -/
def chars (s : String) : List Char := s.toList

/-- Single-quote character (written via its code point). -/
def sQuote : Char := Char.ofNat 39

/-- Left curly bracket character. -/
def lbr : Char := Char.ofNat 123

/-- Right curly bracket character. -/
def rbr : Char := Char.ofNat 125

/-- Python `str` whitespace (ASCII): the characters stripped by `strip()`. -/
def isPySpace (c : Char) : Bool :=
  c == ' ' || c == '\t' || c == '\n' || c == '\r' || c == '\x0b' || c == '\x0c'

/-- Python `s.rstrip(...)` restricted to a character predicate: drop the
longest suffix of characters satisfying `p`. -/
def rstripBy (p : Char → Bool) : List Char → List Char
  | [] => []
  | c :: t =>
    let r := rstripBy p t
    if r = [] ∧ p c = true then [] else c :: r

/-- Python `s.lstrip(...)`: drop the longest prefix satisfying `p`. -/
def lstripBy (p : Char → Bool) (l : List Char) : List Char := l.dropWhile p

/-- Width of the leading-whitespace prefix of a line. -/
def leadingWS (l : List Char) : Nat := (l.takeWhile isPySpace).length

/-- Decimal digits of a natural number (Python `"%d" % n`). -/
def natStr (n : Nat) : List Char := (Nat.repr n).toList

/-- Auxiliary scan for Python `s.find(sub)`: first index at which `sub`
occurs, counting from `idx`. -/
def findAux (sub : List Char) : List Char → Nat → Option Nat
  | [], idx => if sub.isPrefixOf ([] : List Char) then some idx else none
  | c :: t, idx => if sub.isPrefixOf (c :: t) then some idx else findAux sub t (idx + 1)

/-- Python `s.find(sub)`: `some` index of the first occurrence, `none` for -1. -/
def pyFind (sub s : List Char) : Option Nat := findAux sub s 0

/-- Python `s.find(sub, start)`. -/
def pyFindFrom (s sub : List Char) (start : Nat) : Option Nat :=
  if start > s.length then none else findAux sub (s.drop start) start

/-- Python `sub in s` (substring containment). -/
def strIn (sub s : List Char) : Bool := (pyFind sub s).isSome

/-- Python indexing `s[i]` with negative indices counting from the end. -/
def pyGetChar (s : List Char) (i : Int) : Char :=
  if i < 0 then s.getD ((s.length : Int) + i).toNat (Char.ofNat 0)
  else s.getD i.toNat (Char.ofNat 0)

/-- First `some` produced by `f` over the list, in order (a `for` loop with
early `return`). -/
def firstSome {α β : Type} (l : List α) (f : α → Option β) : Option β :=
  l.foldl (fun acc x => match acc with | some r => some r | none => f x) none

/-- Token kinds of the stdlib tokenizer that pep8.py distinguishes. -/
inductive TokType where
  | OP | NEWLINE | NL | COMMENT | STRING | NAME | NUMBER
  | INDENT | DEDENT | ENDMARKER
deriving DecidableEq

/-- One tokenizer token: kind, literal text, start and end positions
(1-based line, 0-based column). -/
structure Token where
  type : TokType
  str : List Char
  startLine : Nat
  startCol : Nat
  endLine : Nat
  endCol : Nat
deriving DecidableEq

/-- Placeholder token for total indexing. -/
def dummyTok : Token := ⟨TokType.NL, [], 0, 0, 0, 0⟩

/-- Whether a string token is triple-quoted (`token.startswith('\x22\x22\x22') or
token.startswith("...")` in `mute_line`). -/
def tripleQuoted (t : List Char) : Bool :=
  (chars "\x22\x22\x22").isPrefixOf t || [sQuote, sQuote, sQuote].isPrefixOf t

/-- Effective `string_start` for a string token on `line_number`
(`mute_line`: start column + 1, +2 more for triple quotes; 0 when the token
started on an earlier physical line). -/
def strStart (t : Token) (line_number : Nat) : Int :=
  if line_number > t.startLine then 0
  else (t.startCol : Int) + 1 + (if tripleQuoted t.str then 2 else 0)

/-- Effective `string_end` for a string token on `line_number`
(`mute_line`: end column - 1, -2 more for triple quotes; `len(line)` when
the token ends on a later physical line). -/
def strEnd (t : Token) (line_number n : Nat) : Int :=
  if line_number < t.endLine then (n : Int)
  else (t.endCol : Int) - 1 - (if tripleQuoted t.str then 2 else 0)

/-- Python slice index semantics: clamp to `[0, n]`, negative counts from
the end. -/
def sliceIdx (n : Nat) (i : Int) : Nat :=
  if i < 0 then ((n : Int) + i).toNat else min i.toNat n

/-- One step of `mute_line`: apply one token to the line.  Comments truncate
the line at the comment start (then right-strip); string interiors are
replaced by `x` filler of the same width. -/
def muteTok (line_number : Nat) (line : List Char) (t : Token) : List Char :=
  if t.startLine ≤ line_number ∧ line_number ≤ t.endLine then
    if t.type = TokType.COMMENT then
      rstripBy isPySpace (line.take t.startCol)
    else if t.type = TokType.STRING then
      let s := strStart t line_number
      let e := strEnd t line_number line.length
      line.take (sliceIdx line.length s) ++
        List.replicate (e - s).toNat 'x' ++
        line.drop (sliceIdx line.length e)
    else line
  else line

/-- `mute_line(line, line_number, tokens)` from pep8.py. -/
def muteLine (line : List Char) (line_number : Nat) (tokens : List Token) : List Char :=
  tokens.foldl (muteTok line_number) line

/-- Values stored in the per-file `state` dictionary. -/
inductive StVal where
  | ch (c : Char)
  | nat (n : Nat)
  | bool (b : Bool)
deriving DecidableEq

/-- The per-file `state` dictionary, as an insertion-ordered association list. -/
abbrev CheckState : Type := List (List Char × StVal)

/-- Dictionary lookup `state.get(key)` / `key in state`. -/
def stGet (st : CheckState) (k : List Char) : Option StVal :=
  (st.find? (fun p => decide (p.1 = k))).map (fun p => p.2)

/-- Dictionary store `state[key] = v` (update in place, else append). -/
def stSet (st : CheckState) (k : List Char) (v : StVal) : CheckState :=
  if st.any (fun p => decide (p.1 = k)) then
    st.map (fun p => if p.1 = k then (k, v) else p)
  else st ++ [(k, v)]

/-- `tabs_or_spaces(physical_line, state)`. -/
def tabs_or_spaces (physical_line : List Char) (state : CheckState) :
    CheckState × Option (Nat × List Char) :=
  let indent := physical_line.takeWhile (fun c => c == ' ' || c == '\t')
  if indent = [] then (state, none)
  else
    let indent_char :=
      match stGet state (chars "indent_char") with
      | some (StVal.ch c) => c
      | _ => indent.headD ' '
    let state :=
      match stGet state (chars "indent_char") with
      | some _ => state
      | none => stSet state (chars "indent_char") (StVal.ch (indent.headD ' '))
    match indent.findIdx? (fun c => !(c == indent_char)) with
    | some offset =>
        (state, some (offset, chars "E101 indentation contains mixed spaces and tabs"))
    | none => (state, none)

/-- `tabs_obsolete(physical_line)`. -/
def tabs_obsolete (physical_line : List Char) : Option (Nat × List Char) :=
  let indent := physical_line.takeWhile (fun c => c == ' ' || c == '\t')
  match indent.findIdx? (fun c => c == '\t') with
  | some i => some (i, chars "W191 indentation contains tabs")
  | none => none

/-- `trailing_whitespace(physical_line)`. -/
def trailing_whitespace (physical_line : List Char) : Option (Nat × List Char) :=
  let physical_line := rstripBy (fun c => c == '\n') physical_line
  let physical_line := rstripBy (fun c => c == '\r') physical_line
  let physical_line := rstripBy (fun c => c == '\x0c') physical_line
  let stripped := rstripBy isPySpace physical_line
  if physical_line ≠ stripped then
    some (stripped.length, chars "W291 trailing whitespace")
  else none

/-- `maximum_line_length(physical_line)`. -/
def maximum_line_length (physical_line : List Char) : Option (Nat × List Char) :=
  let length := (rstripBy isPySpace physical_line).length
  if length > 79 then
    some (79, chars "E501 line too long (" ++ natStr length ++ chars " characters)")
  else none

/-- `indentation(logical_line, state, indent_level)`. -/
def indentation (logical_line : List Char) (state : CheckState) (indent_level : Nat) :
    CheckState × Option (Nat × List Char) :=
  if logical_line = [] then (state, none)
  else
    let previous_level :=
      match stGet state (chars "indent_level") with
      | some (StVal.nat n) => n
      | _ => 0
    let indent_expect :=
      match stGet state (chars "indent_expect") with
      | some (StVal.bool b) => b
      | _ => false
    let state := stSet state (chars "indent_expect")
      (StVal.bool (decide ((rstripBy isPySpace
        (rstripBy (fun c => c == '#') logical_line)).getLast? = some ':')))
    let indent_char :=
      match stGet state (chars "indent_char") with
      | some (StVal.ch c) => c
      | _ => ' '
    let state := stSet state (chars "indent_level") (StVal.nat indent_level)
    if indent_char = ' ' ∧ indent_level % 4 ≠ 0 then
      (state, some (0, chars "E111 indentation is not a multiple of four"))
    else if indent_expect = true ∧ indent_level ≤ previous_level then
      (state, some (0, chars "E112 expected an indented block"))
    else if indent_expect = false ∧ indent_level > previous_level then
      (state, some (0, chars "E113 unexpected indentation"))
    else (state, none)

/-- `blank_lines(logical_line, state, indent_level)`. -/
def blank_lines (logical_line : List Char) (state : CheckState) (indent_level : Nat) :
    CheckState × Option (Nat × List Char) :=
  let first_line := (stGet state (chars "blank_lines")).isNone
  let count :=
    match stGet state (chars "blank_lines") with
    | some (StVal.nat n) => n
    | _ => 0
  let state :=
    if logical_line = [] then stSet state (chars "blank_lines") (StVal.nat (count + 1))
    else stSet state (chars "blank_lines") (StVal.nat 0)
  if (chars "def ").isPrefixOf logical_line ∧ first_line = false then
    if indent_level > 0 ∧ count ≠ 1 then
      (state, some (0, chars "E301 expected 1 blank line, found " ++ natStr count))
    else if indent_level = 0 ∧ count ≠ 2 then
      (state, some (0, chars "E302 expected 2 blank lines, found " ++ natStr count))
    else if count > 2 then
      (state, some (0, chars "E303 too many blank lines (" ++ natStr count ++ chars ")"))
    else (state, none)
  else if count > 2 then
    (state, some (0, chars "E303 too many blank lines (" ++ natStr count ++ chars ")"))
  else (state, none)

/-- `extraneous_whitespace(logical_line)`. -/
def extraneous_whitespace (logical_line : List Char) : Option (Nat × List Char) :=
  let line := logical_line
  (firstSome ['(', '[', lbr] (fun ch =>
    match pyFind [ch, ' '] line with
    | some found => some (found + 1, chars "E201 whitespace after " ++ [sQuote, ch, sQuote])
    | none => none)) <|>
  (firstSome [rbr, ']', ')'] (fun ch =>
    match pyFind [' ', ch] line with
    | some found =>
        if pyGetChar line ((found : Int) - 1) ≠ ',' then
          some (found, chars "E202 whitespace before " ++ [sQuote, ch, sQuote])
        else none
    | none => none)) <|>
  (firstSome [',', ';', ':'] (fun ch =>
    match pyFind [' ', ch] line with
    | some found => some (found, chars "E203 whitespace before " ++ [sQuote, ch, sQuote])
    | none => none))

/-- The `operators` table of pep8.py, in source order. -/
def operators : List (List Char) :=
  [chars "+", chars "-", chars "*", chars "/", chars "%", chars "^",
   chars "&", chars "|", chars "=", chars "<", chars ">", chars ">>", chars "<<",
   chars "+=", chars "-=", chars "*=", chars "/=", chars "%=", chars "^=",
   chars "&=", chars "|=", chars "==", chars "<=", chars ">=", chars ">>=",
   chars "<<=", chars "!=", chars "<>", chars ":",
   chars "in", chars "is", chars "or", chars "not", chars "and"]

/-- ASCII word characters, Python regex `\w`. -/
def isWordChar (c : Char) : Bool := c.isAlphanum || c == '_'

/-- `last_token_match(s)` = `re.search(r'(\w+|\S)\s*$', s)`, returning
group 1: the trailing word run, or the single last non-space character. -/
def last_token_match (s : List Char) : Option (List Char) :=
  let s2 := rstripBy isPySpace s
  match s2.getLast? with
  | none => none
  | some c =>
      if isWordChar c then some ((s2.reverse.takeWhile isWordChar).reverse)
      else some [c]

/-- Python 2 keyword list (`keyword.iskeyword`). -/
def py_keywords : List (List Char) :=
  [chars "and", chars "as", chars "assert", chars "break", chars "class",
   chars "continue", chars "def", chars "del", chars "elif", chars "else",
   chars "except", chars "exec", chars "finally", chars "for", chars "from",
   chars "global", chars "if", chars "import", chars "in", chars "is",
   chars "lambda", chars "not", chars "or", chars "pass", chars "print",
   chars "raise", chars "return", chars "try", chars "while", chars "with",
   chars "yield"]

/-- `keyword.iskeyword`. -/
def iskeyword (s : List Char) : Bool := py_keywords.any (fun k => decide (k = s))

/-- The `continue` condition of `whitespace_before_parameters`. -/
def wbpSkip (line : List Char) (found : Nat) : Bool :=
  let before := (last_token_match (line.take found)).getD []
  operators.any (fun op => decide (op = before)) || decide (before = [',']) ||
    iskeyword before || (chars "class").isPrefixOf line

/-- The inner `while True` scan of `whitespace_before_parameters` for one
bracket character; fuel bounds the number of `find` calls. -/
def wbpLoop (line : List Char) (ch : Char) : Nat → Nat → Option (Nat × List Char)
  | 0, _ => none
  | fuel + 1, start =>
    match pyFindFrom line [' ', ch] start with
    | none => none
    | some found =>
        if wbpSkip line found then wbpLoop line ch fuel (found + 1)
        else some (found, chars "E211 whitespace before " ++ [sQuote, ch, sQuote])

/-- `whitespace_before_parameters(logical_line)`. -/
def whitespace_before_parameters (logical_line : List Char) : Option (Nat × List Char) :=
  firstSome ['(', '['] (fun ch => wbpLoop logical_line ch (logical_line.length + 1) 0)

/-- `whitespace_around_operator(logical_line)`. -/
def whitespace_around_operator (logical_line : List Char) : Option (Nat × List Char) :=
  firstSome operators (fun op =>
    match pyFind ([' ', ' '] ++ op) logical_line with
    | some found => some (found, chars "E221 multiple spaces before operator")
    | none =>
        match pyFind ('\t' :: op) logical_line with
        | some found => some (found, chars "E222 tab before operator")
        | none => none)

/-- `imports_on_separate_lines(logical_line)`. -/
def imports_on_separate_lines (logical_line : List Char) : Option (Nat × List Char) :=
  if (chars "import ").isPrefixOf logical_line then
    match pyFind [','] logical_line with
    | some found => some (found, chars "E401 multiple imports on one line")
    | none => none
  else none

/-- One iteration of the mapping/logical-line construction loop of
`Checker.check_logical` (pep8.py lines 453-466): right-strip and mute the
physical line, skip it when empty, otherwise left-strip it, record the
segment `(len(logical), line_number, indent)` and append the content
(dropping a trailing continuation backslash, and inserting one space when
the accumulated logical line ends with a comma). -/
def buildStep (lines : List (List Char)) (tokens : List Token)
    (acc : List (Nat × Nat × Nat) × List Char) (line_number : Nat) :
    List (Nat × Nat × Nat) × List Char :=
  let line := rstripBy isPySpace (lines.getD (line_number - 1) [])
  let line := muteLine line line_number tokens
  if line ≠ [] then
    let before := line.length
    let stripped := line.dropWhile isPySpace
    let after := stripped.length
    let indent := before - after
    let stripped := if stripped.getLast? = some '\\' then stripped.dropLast else stripped
    let logical := if acc.2.getLast? = some ',' then acc.2 ++ [' '] else acc.2
    (acc.1 ++ [(logical.length, line_number, indent)], logical ++ stripped)
  else acc

/-- The mapping and normalized logical line built by `Checker.check_logical`
for the physical-line range `[startLine, endLine]`. -/
def buildLogical (lines : List (List Char)) (tokens : List Token)
    (startLine endLine : Nat) : List (Nat × Nat × Nat) × List Char :=
  (List.range' startLine (endLine + 1 - startLine)).foldl (buildStep lines tokens) ([], [])

/-- `self.indent_level = mapping[0][2]` of `Checker.check_logical`. -/
def indent_level_of (lines : List (List Char)) (tokens : List Token)
    (startLine endLine : Nat) : Nat :=
  ((buildLogical lines tokens startLine endLine).1.headD (0, 0, 0)).2.2

/-- The offset-mapping loop of `Checker.check_logical` (pep8.py lines
473-477): scan the mapping in order and keep, for the last segment whose
`map_offset` is at most `offset`, the values assigned to `original_number`,
`original_offset` and `original_indent`.  The code computes
`original_offset = offset - map_offset`; `original_indent` is assigned but
never used afterwards. -/
def mapOffsetFold (mapping : List (Nat × Nat × Nat)) (offset : Nat) :
    Option (Nat × Nat × Nat) :=
  mapping.foldl
    (fun acc m => if offset ≥ m.1 then some (m.2.1, offset - m.1, m.2.2) else acc)
    none

/-- The command-line options that `report_error`/`ignore_code` consult. -/
structure Options where
  ignore : List (List Char)
  quiet : Nat
  testsuite : Bool
  show_source : Bool
  show_pep8 : Bool
deriving DecidableEq

/-- Default options: nothing ignored, verbose output. -/
def opts0 : Options := ⟨[], 0, false, false, false⟩

/-- `ignore_code(code)`: some configured ignore entry is a prefix of the code. -/
def ignore_code (opts : Options) (code : List Char) : Bool :=
  opts.ignore.any (fun ig => ig.isPrefixOf code)

/-- `os.path.basename`. -/
def basename (s : List Char) : List Char :=
  s.foldl (fun acc c => if c = '/' then [] else acc ++ [c]) []

/-- The statistics key of `report_error`: the message with a trailing
parenthesized detail stripped. -/
def countKey (text : List Char) : List Char :=
  if text.getLast? = some ')' then
    match pyFind ['('] text.reverse with
    | some rfound => rstripBy isPySpace (text.take (text.length - 1 - rfound))
    | none => text
  else text

/-- `d[k] = d.get(k, 0) + v` on an insertion-ordered association list. -/
def addCount (ec : List (List Char × Nat)) (k : List Char) (v : Nat) :
    List (List Char × Nat) :=
  if ec.any (fun p => decide (p.1 = k)) then
    ec.map (fun p => if p.1 = k then (p.1, p.2 + v) else p)
  else ec ++ [(k, v)]

/-- `Checker` instance data touched by reporting: file name, raw lines,
shared state, the per-file `error_count` dictionary, everything printed via
`message(...)`, and (as instrumentation) the `(line_number, offset, text)`
arguments of every `report_error` call. -/
structure Ck where
  filename : List Char
  lines : List (List Char)
  state : CheckState
  error_count : List (List Char × Nat)
  output : List (List Char)
  findings : List (Nat × Nat × List Char)
deriving DecidableEq

/-- `Checker.report_error(line_number, offset, text, check)`; `doc` is the
check docstring shown under `--show-pep8`. -/
def report_error (opts : Options) (ck : Ck) (line_number offset : Nat)
    (text doc : List Char) : Ck :=
  let ck := { ck with findings := ck.findings ++ [(line_number, offset, text)] }
  let ck :=
    if opts.quiet = 1 ∧ ck.error_count = [] then
      { ck with output := ck.output ++ [ck.filename] }
    else ck
  let code := text.take 4
  let ck := { ck with error_count := addCount ck.error_count (countKey text) 1 }
  if opts.quiet ≠ 0 then ck
  else
    let base := (basename ck.filename).take 4
    if opts.testsuite = true ∧ base = code then ck
    else if opts.testsuite = true ∧ base.headD ' ' = 'E' ∧ code.headD ' ' = 'W' then ck
    else if ignore_code opts code then ck
    else
      let ck := { ck with output := ck.output ++
        [ck.filename ++ [':'] ++ natStr line_number ++ [':'] ++
          natStr (offset + 1) ++ chars ": " ++ text] }
      let ck :=
        if opts.show_source then
          { ck with output := ck.output ++
            [ck.lines.getD (line_number - 1) [], List.replicate offset ' ' ++ ['^']] }
        else ck
      if opts.show_pep8 then
        { ck with output := ck.output ++
          [rstripBy isPySpace (lstripBy (fun c => c == '\n') doc)] }
      else ck

/-- Report one optional check result at the given physical position. -/
def reportOpt (opts : Options) (ck : Ck) (line_number : Nat) (doc : List Char) :
    Option (Nat × List Char) → Ck
  | some (offset, text) => report_error opts ck line_number offset text doc
  | none => ck

/-- `Checker.check_physical(line)`: run the physical-line checks in the
sorted registry order (maximum_line_length, tabs_obsolete, tabs_or_spaces,
trailing_whitespace). -/
def check_physical (opts : Options) (ck : Ck) (line_number : Nat)
    (line : List Char) : Ck :=
  let ck := reportOpt opts ck line_number
    (chars "Limit all lines to a maximum of 79 characters.")
    (maximum_line_length line)
  let ck := reportOpt opts ck line_number
    (chars "For new projects, spaces-only are strongly recommended over tabs.")
    (tabs_obsolete line)
  let r := tabs_or_spaces line ck.state
  let ck := { ck with state := r.1 }
  let ck := reportOpt opts ck line_number
    (chars "Never mix tabs and spaces.") r.2
  reportOpt opts ck line_number
    (chars "JCR: Trailing whitespace is superfluous.")
    (trailing_whitespace line)

/-- One accumulated statement: the `start`/`end` positions and token list
handed to `Checker.check_logical`. -/
structure Stmt where
  startLine : Nat
  startCol : Nat
  endLine : Nat
  endCol : Nat
  toks : List Token
deriving DecidableEq

/-- Loop state of `Checker.check_all`: pending `start`, accumulated
`tokens`, bracket depth `parens`, and the statements flushed so far. -/
structure SplitSt where
  start : Option (Nat × Nat)
  toks : List Token
  parens : Int
  stmts : List Stmt
deriving DecidableEq

/-- The opening brackets string literal of `check_all`. -/
def opensStr : List Char := ['(', '[', lbr]

/-- The closing brackets string literal of `check_all`. -/
def closesStr : List Char := [rbr, ']', ')']

/-- The two `parens` updates of `check_all` for one token (Python
`token_string in '(..'` is substring containment). -/
def opAdjust (d : Int) (t : Token) : Int :=
  let d := if t.type = TokType.OP ∧ strIn t.str opensStr then d + 1 else d
  if t.type = TokType.OP ∧ strIn t.str closesStr then d - 1 else d

/-- Net bracket depth after a token sequence. -/
def tokDepth (ts : List Token) : Int := ts.foldl opAdjust 0

/-- One iteration of the token loop of `Checker.check_all`. -/
def splitStep (st : SplitSt) (t : Token) : SplitSt :=
  let toks := st.toks ++ [t]
  let start :=
    match st.start with
    | none => (t.startLine, t.startCol)
    | some p => p
  let parens := opAdjust st.parens t
  if t.type = TokType.NEWLINE ∧ parens = 0 then
    { start := none, toks := [], parens := parens,
      stmts := st.stmts ++ [⟨start.1, start.2, t.endLine, t.endCol, toks⟩] }
  else
    { start := some start, toks := toks, parens := parens, stmts := st.stmts }

/-- Initial loop state of `check_all`. -/
def splitInit : SplitSt := ⟨none, [], 0, []⟩

/-- The statements for which `check_all` invokes `check_logical`, in order. -/
def statements (tokens : List Token) : List Stmt :=
  (tokens.foldl splitStep splitInit).stmts

/-- `Checker.check_logical(start, end, tokens)`: build the logical line and
mapping, set `indent_level`, run the logical-line checks in sorted registry
order, and report each result through the offset-mapping loop. -/
def check_logical (opts : Options) (ck : Ck) (st : Stmt) : Ck :=
  let bl := buildLogical ck.lines st.toks st.startLine st.endLine
  let mapping := bl.1
  let logical := bl.2
  let indent_level := (mapping.headD (0, 0, 0)).2.2
  let repMapped := fun (ck : Ck) (doc : List Char) (r : Option (Nat × List Char)) =>
    match r with
    | some (offset, text) =>
        let m := (mapOffsetFold mapping offset).getD (0, 0, 0)
        report_error opts ck m.1 m.2.1 text doc
    | none => ck
  let r := blank_lines logical ck.state indent_level
  let ck := { ck with state := r.1 }
  let ck := repMapped ck
    (chars "Separate top-level function and class definitions with two blank lines.") r.2
  let ck := repMapped ck
    (chars "Avoid extraneous whitespace in the following situations.")
    (extraneous_whitespace logical)
  let ck := repMapped ck
    (chars "Imports should usually be on separate lines.")
    (imports_on_separate_lines logical)
  let r2 := indentation logical ck.state indent_level
  let ck := { ck with state := r2.1 }
  let ck := repMapped ck
    (chars "Use 4 spaces per indentation level.") r2.2
  let ck := repMapped ck
    (chars "Avoid extraneous whitespace around an operator.")
    (whitespace_around_operator logical)
  repMapped ck
    (chars "Avoid extraneous whitespace before the open parenthesis.")
    (whitespace_before_parameters logical)

/-- The per-file run of `Checker.check_all` once the tokenizer succeeded:
each physical line is checked when it is read (the tokenizer pulls lines
through `readline_check_physical`, plus one final empty read at EOF), and
each statement runs through `check_logical` right after the physical line
holding its terminating NEWLINE token was read. -/
def runFile (opts : Options) (filename : List Char) (lines : List (List Char))
    (tokens : List Token) : Ck :=
  let stmts := statements tokens
  let ck0 : Ck := ⟨filename, lines, [], [], [], []⟩
  (List.range' 1 (lines.length + 1)).foldl
    (fun ck line_number =>
      let ck := check_physical opts ck line_number (lines.getD (line_number - 1) [])
      (stmts.filter (fun s => decide (s.endLine = line_number))).foldl
        (fun ck s => check_logical opts ck s) ck)
    ck0

/-- One file handed to the batch loop: name, raw lines, and the outcome of
`tokenize.generate_tokens` over it (`Except.error` models the tokenizer
raising a `TokenizeError`, which pep8.py does not catch anywhere). -/
structure FileIn where
  filename : List Char
  flines : List (List Char)
  tok : Except (List Char) (List Token)

/-- Whether the tokenizer succeeds on the file. -/
def tokIsOk (f : FileIn) : Bool :=
  match f.tok with
  | Except.ok _ => true
  | Except.error _ => false

/-- `Checker.check_all()`: iterate the token stream; a tokenizer exception
propagates out uncaught (`Except.error`). -/
def check_all (opts : Options) (f : FileIn) : Except (List Char) Ck :=
  match f.tok with
  | Except.error e => Except.error e
  | Except.ok ts => Except.ok (runFile opts f.filename f.flines ts)

/-- `input_file(filename)`: run all checks, return the per-file
`error_count`; an exception keeps propagating. -/
def input_file (opts : Options) (f : FileIn) :
    Except (List Char) (List (List Char × Nat)) :=
  match check_all opts f with
  | Except.error e => Except.error e
  | Except.ok ck => Except.ok ck.error_count

/-- `add_error_count(error_count, file_errors)`. -/
def add_error_count (error_count file_errors : List (List Char × Nat)) :
    List (List Char × Nat) :=
  file_errors.foldl (fun ec p => addCount ec p.1 p.2) error_count

/-- The per-file loop of `input_dir`: `input_file` then
`add_error_count`; an uncaught exception from any file aborts the whole
loop and discards the accumulated counts. -/
def input_dir_go (opts : Options) (acc : List (List Char × Nat)) :
    List FileIn → Except (List Char) (List (List Char × Nat))
  | [] => Except.ok acc
  | f :: rest =>
    match input_file opts f with
    | Except.error e => Except.error e
    | Except.ok cnt => input_dir_go opts (add_error_count acc cnt) rest

/-- Batch processing of a list of files (the aggregation loop of
`input_dir`). -/
def input_dir_files (opts : Options) (files : List FileIn) :
    Except (List Char) (List (List Char × Nat)) :=
  input_dir_go opts [] files

/-- A check as `find_checks` records it: global name and declared argument
names (`inspect.getargspec(function)[0]`). -/
structure CheckDecl where
  name : List Char
  args : List (List Char)
deriving DecidableEq

/-- Lexicographic comparison on names (Python string `<=`). -/
def clLe : List Char → List Char → Bool
  | [], _ => true
  | _ :: _, [] => false
  | a :: as, b :: bs => if a = b then clLe as bs else decide (a < b)

/-- Stable insertion into a name-sorted list. -/
def insertSorted (c : CheckDecl) : List CheckDecl → List CheckDecl
  | [] => [c]
  | d :: ds => if clLe c.name d.name then c :: d :: ds else d :: insertSorted c ds

/-- Stable sort by name (`checks.sort()`; names are unique dictionary keys). -/
def sortChecks : List CheckDecl → List CheckDecl
  | [] => []
  | c :: cs => insertSorted c (sortChecks cs)

/-- `find_checks(argument_name)`: keep the functions whose first declared
argument starts with `argument_name`, sorted by name.  Discovery records the
full argument list without resolving any of the names. -/
def find_checks (registry : List CheckDecl) (argument_name : List Char) :
    List CheckDecl :=
  sortChecks (registry.filter
    (fun c => decide (c.args.length ≥ 1) && argument_name.isPrefixOf (c.args.headD [])))

/-- Values of `Checker` instance attributes, as fetched by `getattr`. -/
inductive AttrVal where
  | str (s : List Char)
  | num (n : Nat)
  | strList (l : List (List Char))
  | dict (st : CheckState)
deriving DecidableEq

/-- `getattr(self, name)`: `none` models the `AttributeError` raised for an
unknown attribute. -/
def getattr (ctx : List (List Char × AttrVal)) (name : List Char) : Option AttrVal :=
  (ctx.find? (fun p => decide (p.1 = name))).map (fun p => p.2)

/-- The argument-collection loop of `Checker.run_check`: resolve each
declared argument name against the instance; the first unresolvable name
aborts with `none` (`AttributeError` at dispatch time). -/
def run_check (ctx : List (List Char × AttrVal)) :
    List (List Char) → Option (List AttrVal)
  | [] => some []
  | n :: rest =>
    match getattr ctx n with
    | none => none
    | some v =>
      match run_check ctx rest with
      | none => none
      | some vs => some (v :: vs)

/-- Physical lines of the C8 scenario file `"if True:\n    x = 1  \n"`. -/
def c8lines : List (List Char) := [chars "if True:\n", chars "    x = 1  \n"]

/-- Token stream of the C8 scenario file, as `tokenize.generate_tokens`
produces it. -/
def c8tokens : List Token :=
  [⟨TokType.NAME, chars "if", 1, 0, 1, 2⟩,
   ⟨TokType.NAME, chars "True", 1, 3, 1, 7⟩,
   ⟨TokType.OP, chars ":", 1, 7, 1, 8⟩,
   ⟨TokType.NEWLINE, chars "\n", 1, 8, 1, 9⟩,
   ⟨TokType.INDENT, chars "    ", 2, 0, 2, 4⟩,
   ⟨TokType.NAME, chars "x", 2, 4, 2, 5⟩,
   ⟨TokType.OP, chars "=", 2, 6, 2, 7⟩,
   ⟨TokType.NUMBER, chars "1", 2, 8, 2, 9⟩,
   ⟨TokType.NEWLINE, chars "\n", 2, 11, 2, 12⟩,
   ⟨TokType.DEDENT, [], 3, 0, 3, 0⟩,
   ⟨TokType.ENDMARKER, [], 3, 0, 3, 0⟩]

/-- Physical lines of the C9 scenario file
`"def f():\n    pass\ndef g():\n    pass\n"`. -/
def c9lines : List (List Char) :=
  [chars "def f():\n", chars "    pass\n", chars "def g():\n", chars "    pass\n"]

/-- Token stream of the C9 scenario file. -/
def c9tokens : List Token :=
  [⟨TokType.NAME, chars "def", 1, 0, 1, 3⟩,
   ⟨TokType.NAME, chars "f", 1, 4, 1, 5⟩,
   ⟨TokType.OP, chars "(", 1, 5, 1, 6⟩,
   ⟨TokType.OP, chars ")", 1, 6, 1, 7⟩,
   ⟨TokType.OP, chars ":", 1, 7, 1, 8⟩,
   ⟨TokType.NEWLINE, chars "\n", 1, 8, 1, 9⟩,
   ⟨TokType.INDENT, chars "    ", 2, 0, 2, 4⟩,
   ⟨TokType.NAME, chars "pass", 2, 4, 2, 8⟩,
   ⟨TokType.NEWLINE, chars "\n", 2, 8, 2, 9⟩,
   ⟨TokType.DEDENT, [], 3, 0, 3, 0⟩,
   ⟨TokType.NAME, chars "def", 3, 0, 3, 3⟩,
   ⟨TokType.NAME, chars "g", 3, 4, 3, 5⟩,
   ⟨TokType.OP, chars "(", 3, 5, 3, 6⟩,
   ⟨TokType.OP, chars ")", 3, 6, 3, 7⟩,
   ⟨TokType.OP, chars ":", 3, 7, 3, 8⟩,
   ⟨TokType.NEWLINE, chars "\n", 3, 8, 3, 9⟩,
   ⟨TokType.INDENT, chars "    ", 4, 0, 4, 4⟩,
   ⟨TokType.NAME, chars "pass", 4, 4, 4, 8⟩,
   ⟨TokType.NEWLINE, chars "\n", 4, 8, 4, 9⟩,
   ⟨TokType.DEDENT, [], 5, 0, 5, 0⟩,
   ⟨TokType.ENDMARKER, [], 5, 0, 5, 0⟩]

/-- Physical lines of the C1 failing input `"if True:\n    x = ( 1)\n"`:
the second statement is an indented logical line on which
`extraneous_whitespace` reports logical offset 5. -/
def c1lines : List (List Char) := [chars "if True:\n", chars "    x = ( 1)\n"]

/-- Token stream of the C1 failing input. -/
def c1tokens : List Token :=
  [⟨TokType.NAME, chars "if", 1, 0, 1, 2⟩,
   ⟨TokType.NAME, chars "True", 1, 3, 1, 7⟩,
   ⟨TokType.OP, chars ":", 1, 7, 1, 8⟩,
   ⟨TokType.NEWLINE, chars "\n", 1, 8, 1, 9⟩,
   ⟨TokType.INDENT, chars "    ", 2, 0, 2, 4⟩,
   ⟨TokType.NAME, chars "x", 2, 4, 2, 5⟩,
   ⟨TokType.OP, chars "=", 2, 6, 2, 7⟩,
   ⟨TokType.OP, chars "(", 2, 8, 2, 9⟩,
   ⟨TokType.NUMBER, chars "1", 2, 10, 2, 11⟩,
   ⟨TokType.OP, chars ")", 2, 11, 2, 12⟩,
   ⟨TokType.NEWLINE, chars "\n", 2, 12, 2, 13⟩,
   ⟨TokType.DEDENT, [], 3, 0, 3, 0⟩,
   ⟨TokType.ENDMARKER, [], 3, 0, 3, 0⟩]

/-- A placeholder statement for total indexing. -/
def dummyStmt : Stmt := ⟨0, 0, 0, 0, []⟩

/-- A file the tokenizer handles fine (`"pass\n"`), producing no findings. -/
def fileOk : FileIn :=
  ⟨chars "a.py", [chars "pass\n"],
   Except.ok
     [⟨TokType.NAME, chars "pass", 1, 0, 1, 4⟩,
      ⟨TokType.NEWLINE, chars "\n", 1, 4, 1, 5⟩,
      ⟨TokType.ENDMARKER, [], 2, 0, 2, 0⟩]⟩

/-- A file on which the tokenizer raises (`"x = (\n"` hits end of file
inside a bracket). -/
def fileBad : FileIn :=
  ⟨chars "b.py", [chars "x = (\n"],
   Except.error (chars "EOF in multi-line statement")⟩

/-- Options with the ignore-list entry `W`, as produced by `--ignore=W`. -/
def optsW : Options := ⟨[chars "W"], 0, false, false, false⟩

/-- The W291 message emitted by `trailing_whitespace`. -/
def w291 : List Char := chars "W291 trailing whitespace"

/-- An empty checker state for file `input.py`. -/
def ckEmpty : Ck := ⟨chars "input.py", [], [], [], [], []⟩

/-- A `Checker` attribute context holding the standard file-processing
attributes. -/
def ctx0 : List (List Char × AttrVal) :=
  [(chars "physical_line", AttrVal.str (chars "x = 1\n")),
   (chars "logical_line", AttrVal.str (chars "x = 1")),
   (chars "state", AttrVal.dict []),
   (chars "indent_level", AttrVal.num 0),
   (chars "filename", AttrVal.str (chars "input.py")),
   (chars "lines", AttrVal.strList [chars "x = 1\n"]),
   (chars "line_number", AttrVal.num 1)]

/-- A well-formed logical-line check declaration. -/
def goodCheck : CheckDecl :=
  ⟨chars "blank_lines", [chars "logical_line", chars "state", chars "indent_level"]⟩

/-- A check declaration whose second argument name matches no `Checker`
attribute. -/
def badCheck : CheckDecl :=
  ⟨chars "broken_check", [chars "logical_line", chars "missing_attr"]⟩

/-- A registry containing the good and the unresolvable check. -/
def registry0 : List CheckDecl := [goodCheck, badCheck]

instance {ε α : Type} [DecidableEq ε] [DecidableEq α] : DecidableEq (Except ε α) :=
  fun a b =>
    match a, b with
    | Except.error e, Except.error f =>
        decidable_of_iff (e = f) ⟨fun h => by rw [h], fun h => by injection h⟩
    | Except.error _, Except.ok _ => isFalse (fun h => Except.noConfusion h)
    | Except.ok _, Except.error _ => isFalse (fun h => Except.noConfusion h)
    | Except.ok x, Except.ok y =>
        decidable_of_iff (x = y) ⟨fun h => by rw [h], fun h => by injection h⟩

/-- Claim C8: on the input `"if True:\n    x = 1  \n"` the full per-file run
reports exactly one finding, a trailing-whitespace finding at line 2 whose
reported column (the 0-based offset handed to `report_error`, printed as
`offset + 1`) equals `len("    x = 1") = 9`. -/
theorem c8_trailing_whitespace_scenario :
    (runFile opts0 (chars "input.py") c8lines c8tokens).findings =
      [(2, 9, chars "W291 trailing whitespace")] ∧
    (chars "    x = 1").length = 9 := by decide

/-- Claim C9: on the input `"def f():\n    pass\ndef g():\n    pass\n"` the
full per-file run produces exactly one finding: the blank-lines check fires
on the second `def` (line 3) with `E302 expected 2 blank lines, found 0`,
and no check fires on the first `def`. -/
theorem c9_blank_lines_scenario :
    (runFile opts0 (chars "input.py") c9lines c9tokens).findings =
      [(3, 0, chars "E302 expected 2 blank lines, found 0")] := by decide

/-- Claim C1 (failing input): on `"if True:\n    x = ( 1)\n"` the logical
line `x = ( 1)` has the single segment `(0, 2, 4)` (offset 0, line 2,
original indent 4), `extraneous_whitespace` reports logical offset 5, and
the offset-mapping loop hands `report_error` column `5 - 0 = 5` — the
segment's `original_indent` 4 is assigned but never added, where the claimed
formula yields `5 - 0 + 4 = 9`. -/
theorem c1_mapper_drops_indent :
    (buildLogical c1lines ((statements c1tokens).getD 1 dummyStmt).toks 2 2).1 =
      [(0, 2, 4)] ∧
    mapOffsetFold [(0, 2, 4)] 5 = some (2, 5, 4) ∧
    (runFile opts0 (chars "input.py") c1lines c1tokens).findings =
      [(2, 5, chars "E201 whitespace after " ++ [sQuote, '(', sQuote])] ∧
    5 - 0 + 4 = 9 := by decide

/-- Claim C2 (counterexample): a `W291` finding whose code matches the
ignore entry `W` is dropped from the output, but `report_error` increments
the per-file `error_count` anyway — the increment at pep8.py line 518
precedes the `ignore_code` test at line 527. -/
theorem c2_ignored_finding_still_counted :
    ignore_code optsW ((chars "W291 trailing whitespace").take 4) = true ∧
    (report_error optsW ckEmpty 2 9 w291 []).output = [] ∧
    (report_error optsW ckEmpty 2 9 w291 []).error_count ≠ ckEmpty.error_count ∧
    (report_error optsW ckEmpty 2 9 w291 []).error_count = [(w291, 1)] := by decide

/-- Claim C3 (counterexample): a batch containing a file on which the
tokenizer raises does not continue with the remaining files and does not
record a tokenize-error finding — the whole run aborts with the propagated
error, discarding the counts of the already-processed file (alone, that
file yields `ok []`). -/
theorem c3_tokenize_error_aborts_batch :
    input_dir_files opts0 [fileOk] = Except.ok [] ∧
    input_dir_files opts0 [fileOk, fileBad] =
      Except.error (chars "EOF in multi-line statement") := by decide

/-- Claim C4 (counterexample): `find_checks` accepts the declaration whose
second argument `missing_attr` matches no `Checker` attribute — discovery
returns both checks without any error — and the failure surfaces only in
`run_check`, when `getattr` first resolves the arguments at dispatch time. -/
theorem c4_discovery_accepts_unresolvable :
    find_checks registry0 (chars "logical_line") = [goodCheck, badCheck] ∧
    run_check ctx0 badCheck.args = none ∧
    run_check ctx0 goodCheck.args ≠ none := by decide

/-- No token overlapping `line_number` is a comment or string token. -/
def noMuteTokens (tokens : List Token) (line_number : Nat) : Bool :=
  tokens.all (fun t => decide (t.startLine ≤ line_number → line_number ≤ t.endLine →
    t.type ≠ TokType.COMMENT ∧ t.type ≠ TokType.STRING))

/-- Claim C10: when no token overlapping the physical line is a comment or
string token, `mute_line` returns the line unchanged. -/
theorem c10_mute_identity (line : List Char) (line_number : Nat) (tokens : List Token)
    (h : noMuteTokens tokens line_number = true) :
    muteLine line line_number tokens = line := by
  induction tokens generalizing line with
  | nil => rfl
  | cons t rest ih =>
    simp only [noMuteTokens, List.all_cons, Bool.and_eq_true] at h
    obtain ⟨h1b, h2⟩ := h
    have h1 := of_decide_eq_true h1b
    have ht : muteTok line_number line t = line := by
      unfold muteTok
      split
      · next hov =>
        obtain ⟨hC, hS⟩ := h1 hov.1 hov.2
        rw [if_neg hC, if_neg hS]
      · rfl
    show muteLine (muteTok line_number line t) line_number rest = line
    rw [ht]
    exact ih line h2

/-- Witness for C10: a plain assignment line with only name/operator/number
tokens is left untouched by muting. -/
theorem c10_mute_identity_witness :
    noMuteTokens
      [⟨TokType.NAME, chars "x", 1, 0, 1, 1⟩,
       ⟨TokType.OP, chars "=", 1, 2, 1, 3⟩,
       ⟨TokType.NUMBER, chars "1", 1, 4, 1, 5⟩] 1 = true ∧
    muteLine (chars "x = 1") 1
      [⟨TokType.NAME, chars "x", 1, 0, 1, 1⟩,
       ⟨TokType.OP, chars "=", 1, 2, 1, 3⟩,
       ⟨TokType.NUMBER, chars "1", 1, 4, 1, 5⟩] = chars "x = 1" :=
  ⟨by decide,
   c10_mute_identity (chars "x = 1") 1
     [⟨TokType.NAME, chars "x", 1, 0, 1, 1⟩,
      ⟨TokType.OP, chars "=", 1, 2, 1, 3⟩,
      ⟨TokType.NUMBER, chars "1", 1, 4, 1, 5⟩] (by decide)⟩

/-- Muting touches the line by filling only: no token overlapping
`line_number` is a comment token, and every string token overlapping it has
effective fill bounds inside the line of length `n`, in order
`0 ≤ string_start ≤ string_end ≤ n` (as the tokenizer guarantees for real
streams).  Tokens of any other kind are left unconstrained — `mute_line`
ignores them. -/
def muteFillOnly (tokens : List Token) (line_number n : Nat) : Bool :=
  tokens.all (fun t => decide (t.startLine ≤ line_number → line_number ≤ t.endLine →
    t.type ≠ TokType.COMMENT ∧
    (t.type = TokType.STRING →
      0 ≤ strStart t line_number ∧
      strStart t line_number ≤ strEnd t line_number n ∧
      strEnd t line_number n ≤ (n : Int))))

/-- One `mute_line` step preserves the line length when the token is not a
comment and, if a string, has in-range fill bounds. -/
theorem muteTok_length (line_number : Nat) (line : List Char) (t : Token)
    (h : t.startLine ≤ line_number → line_number ≤ t.endLine →
      t.type ≠ TokType.COMMENT ∧
      (t.type = TokType.STRING →
        0 ≤ strStart t line_number ∧
        strStart t line_number ≤ strEnd t line_number line.length ∧
        strEnd t line_number line.length ≤ (line.length : Int))) :
    (muteTok line_number line t).length = line.length := by
  unfold muteTok
  split
  · next hov =>
    obtain ⟨hC, hS⟩ := h hov.1 hov.2
    rw [if_neg hC]
    by_cases hstr : t.type = TokType.STRING
    · rw [if_pos hstr]
      obtain ⟨h0, hse, hen⟩ := hS hstr
      simp only [List.length_append, List.length_take, List.length_replicate,
        List.length_drop, sliceIdx]
      rw [if_neg (by omega), if_neg (by omega)]
      omega
    · rw [if_neg hstr]
  · rfl

/-- Claim C6: when muting a physical line involves only string filling and
no comment truncation — no overlapping token is a comment, and every
overlapping string token fills an in-range span — `mute_line` returns a
string of exactly the input length, so column positions of non-muted
content are unchanged. -/
theorem c6_mute_preserves_length (line : List Char) (line_number : Nat)
    (tokens : List Token)
    (h : muteFillOnly tokens line_number line.length = true) :
    (muteLine line line_number tokens).length = line.length := by
  suffices aux : ∀ (ts : List Token) (l : List Char), l.length = line.length →
      muteFillOnly ts line_number line.length = true →
      (muteLine l line_number ts).length = line.length by
    exact aux tokens line rfl h
  intro ts
  induction ts with
  | nil => intro l hl _; exact hl
  | cons t rest ih =>
    intro l hl hok
    simp only [muteFillOnly, List.all_cons, Bool.and_eq_true] at hok
    have hlen : (muteTok line_number l t).length = l.length := by
      apply muteTok_length
      rw [hl]
      exact of_decide_eq_true hok.1
    show (muteLine (muteTok line_number l t) line_number rest).length = line.length
    apply ih
    · rw [hlen, hl]
    · exact hok.2

/-- The physical line of the C6 witness: a line containing only a string
literal (the right-stripped line `check_logical` hands to `mute_line`). -/
def c6line : List Char := chars "\x22abc\x22"

/-- The full token stream `tokenize.generate_tokens` produces for the file
`'\x22abc\x22\n'` — the STRING token plus the NEWLINE token overlapping the same
line, and the trailing ENDMARKER — exactly what `check_logical` passes to
`mute_line` for this statement. -/
def c6toks : List Token :=
  [⟨TokType.STRING, chars "\x22abc\x22", 1, 0, 1, 5⟩,
   ⟨TokType.NEWLINE, chars "\n", 1, 5, 1, 6⟩,
   ⟨TokType.ENDMARKER, [], 2, 0, 2, 0⟩]

/-- Witness for C6: on a line containing only a string literal, muted with
its statement's real token stream, the length 5 is preserved. -/
theorem c6_mute_preserves_length_witness :
    muteFillOnly c6toks 1 c6line.length = true ∧
    (muteLine c6line 1 c6toks).length = c6line.length :=
  ⟨by decide, c6_mute_preserves_length c6line 1 c6toks (by decide)⟩

/-- Claim C2 (amended): a finding whose structural code prefix-matches an
ignore entry is never emitted — the output gains at most the quiet-mode
filename banner — but the per-file `error_count` is still incremented,
because the increment precedes the `ignore_code` test. -/
theorem c2_ignore_drops_output_but_counts (opts : Options) (ck : Ck)
    (line_number offset : Nat) (text doc : List Char)
    (h : ignore_code opts (text.take 4) = true) :
    (report_error opts ck line_number offset text doc).output =
      ck.output ++ (if opts.quiet = 1 ∧ ck.error_count = [] then [ck.filename] else []) ∧
    (report_error opts ck line_number offset text doc).error_count =
      addCount ck.error_count (countKey text) 1 := by
  unfold report_error
  by_cases hq : opts.quiet = 1 ∧ ck.error_count = []
  · simp only [if_pos hq]
    split_ifs <;> simp_all
  · simp only [if_neg hq]
    split_ifs <;> simp_all

/-- Witness for C2's amended claim, at the W291/`--ignore=W` instance. -/
theorem c2_ignore_drops_output_but_counts_witness :
    ignore_code optsW (w291.take 4) = true ∧
    ((report_error optsW ckEmpty 2 9 w291 []).output =
      ckEmpty.output ++
        (if optsW.quiet = 1 ∧ ckEmpty.error_count = [] then [ckEmpty.filename] else []) ∧
     (report_error optsW ckEmpty 2 9 w291 []).error_count =
      addCount ckEmpty.error_count (countKey w291) 1) :=
  ⟨by decide, c2_ignore_drops_output_but_counts optsW ckEmpty 2 9 w291 [] (by decide)⟩

/-- Claim C3 (amended): a tokenizer error is caught nowhere, so once the
batch loop reaches a file whose tokenization fails (all earlier files
tokenizing fine), the whole run aborts with that error and no aggregated
counts survive. -/
theorem c3_tokenize_error_uncaught (opts : Options) (pre : List FileIn)
    (f : FileIn) (post : List FileIn) (e : List Char)
    (hpre : pre.all tokIsOk = true) (hf : f.tok = Except.error e) :
    input_dir_files opts (pre ++ f :: post) = Except.error e := by
  suffices aux : ∀ (l : List FileIn) (acc : List (List Char × Nat)),
      l.all tokIsOk = true →
      input_dir_go opts acc (l ++ f :: post) = Except.error e by
    exact aux pre [] hpre
  intro l
  induction l with
  | nil =>
    intro acc _
    show input_dir_go opts acc (f :: post) = Except.error e
    simp [input_dir_go, input_file, check_all, hf]
  | cons g rest ih =>
    intro acc hall
    simp only [List.all_cons, Bool.and_eq_true] at hall
    obtain ⟨hg, hrest⟩ := hall
    match hok : g.tok with
    | Except.error err => rw [tokIsOk, hok] at hg; exact absurd hg (by simp)
    | Except.ok ts =>
      show input_dir_go opts acc (g :: (rest ++ f :: post)) = Except.error e
      simp only [input_dir_go, input_file, check_all, hok]
      exact ih _ hrest

/-- Witness for C3's amended claim: one clean file, then the failing file,
then another clean file; the whole batch result is the propagated error. -/
theorem c3_tokenize_error_uncaught_witness :
    [fileOk].all tokIsOk = true ∧
    fileBad.tok = Except.error (chars "EOF in multi-line statement") ∧
    input_dir_files opts0 ([fileOk] ++ fileBad :: [fileOk]) =
      Except.error (chars "EOF in multi-line statement") :=
  ⟨by decide, by decide,
   c3_tokenize_error_uncaught opts0 [fileOk] fileBad [fileOk]
     (chars "EOF in multi-line statement") (by decide) (by decide)⟩

/-- Membership is preserved by sorted insertion. -/
theorem mem_insertSorted (a c : CheckDecl) (l : List CheckDecl) :
    a ∈ insertSorted c l ↔ a = c ∨ a ∈ l := by
  induction l with
  | nil => simp [insertSorted]
  | cons d ds ih =>
    unfold insertSorted
    split
    · simp [or_comm, or_assoc, or_left_comm]
    · simp [ih, or_comm, or_assoc, or_left_comm]

/-- Membership is preserved by the name sort. -/
theorem mem_sortChecks (a : CheckDecl) (l : List CheckDecl) :
    a ∈ sortChecks l ↔ a ∈ l := by
  induction l with
  | nil => simp [sortChecks]
  | cons c cs ih => simp [sortChecks, mem_insertSorted, ih]

/-- An unresolvable declared argument name makes the whole argument
collection of `run_check` fail. -/
theorem run_check_unresolvable (ctx : List (List Char × AttrVal))
    (args : List (List Char)) (n : List Char)
    (hmem : n ∈ args) (hnone : getattr ctx n = none) :
    run_check ctx args = none := by
  induction args with
  | nil => cases hmem
  | cons a rest ih =>
    rcases List.mem_cons.mp hmem with h | h
    · subst h
      unfold run_check
      rw [hnone]
    · unfold run_check
      cases hga : getattr ctx a
      · rfl
      · rw [ih h]

/-- Claim C4 (amended): a check declaring an argument name that resolves
against no `Checker` attribute still passes discovery — `find_checks`
filters only on the first argument's prefix and never validates the rest —
and the failure surfaces as an `AttributeError` inside `run_check` when the
check is first dispatched. -/
theorem c4_unresolvable_fails_at_dispatch (registry : List CheckDecl)
    (argument_name : List Char) (c : CheckDecl)
    (ctx : List (List Char × AttrVal)) (n : List Char)
    (h1 : c ∈ registry) (h2 : 1 ≤ c.args.length)
    (h3 : argument_name.isPrefixOf (c.args.headD []) = true)
    (h4 : n ∈ c.args) (h5 : getattr ctx n = none) :
    c ∈ find_checks registry argument_name ∧ run_check ctx c.args = none := by
  constructor
  · unfold find_checks
    rw [mem_sortChecks]
    rw [List.mem_filter]
    refine ⟨h1, ?_⟩
    rw [Bool.and_eq_true]
    exact ⟨decide_eq_true h2, h3⟩
  · exact run_check_unresolvable ctx c.args n h4 h5

/-- Witness for C4's amended claim at the `broken_check` instance. -/
theorem c4_unresolvable_fails_at_dispatch_witness :
    badCheck ∈ registry0 ∧ getattr ctx0 (chars "missing_attr") = none ∧
    (badCheck ∈ find_checks registry0 (chars "logical_line") ∧
     run_check ctx0 badCheck.args = none) :=
  ⟨by decide, by decide,
   c4_unresolvable_fails_at_dispatch registry0 (chars "logical_line") badCheck ctx0
     (chars "missing_attr") (by decide) (by decide) (by decide) (by decide) (by decide)⟩

/-- One build iteration preserves the segment invariants: offsets weakly
increase and stay within the accumulated logical line. -/
theorem buildStep_inv (lines : List (List Char)) (tokens : List Token)
    (acc : List (Nat × Nat × Nat) × List Char) (ln : Nat)
    (h1 : List.Chain' (fun a b => a.1 ≤ b.1) acc.1)
    (h2 : ∀ x ∈ acc.1, x.1 ≤ acc.2.length) :
    List.Chain' (fun a b => a.1 ≤ b.1) (buildStep lines tokens acc ln).1 ∧
    ∀ x ∈ (buildStep lines tokens acc ln).1,
      x.1 ≤ (buildStep lines tokens acc ln).2.length := by
  simp only [buildStep]
  split
  · set lg := if acc.2.getLast? = some ',' then acc.2 ++ [' '] else acc.2 with hlg
    have hlen : acc.2.length ≤ lg.length := by
      rw [hlg]; split <;> simp
    constructor
    · rw [List.chain'_append]
      refine ⟨h1, List.chain'_singleton _, ?_⟩
      intro x hx y hy
      simp only [List.head?_cons, Option.mem_def, Option.some.injEq] at hy
      subst hy
      exact le_trans (h2 x (List.mem_of_mem_getLast? hx)) hlen
    · intro x hx
      simp only [List.length_append]
      rcases List.mem_append.mp hx with h | h
      · exact le_trans (le_trans (h2 x h) hlen) (Nat.le_add_right _ _)
      · simp only [List.mem_singleton] at h
        subst h
        exact Nat.le_add_right _ _
  · exact ⟨h1, h2⟩

/-- The build loop preserves the segment invariants. -/
theorem buildFold_inv (lines : List (List Char)) (tokens : List Token)
    (L : List Nat) (acc : List (Nat × Nat × Nat) × List Char)
    (h1 : List.Chain' (fun a b => a.1 ≤ b.1) acc.1)
    (h2 : ∀ x ∈ acc.1, x.1 ≤ acc.2.length) :
    List.Chain' (fun a b => a.1 ≤ b.1) (L.foldl (buildStep lines tokens) acc).1 ∧
    ∀ x ∈ (L.foldl (buildStep lines tokens) acc).1,
      x.1 ≤ (L.foldl (buildStep lines tokens) acc).2.length := by
  induction L generalizing acc with
  | nil => exact ⟨h1, h2⟩
  | cons ln rest ih =>
    have hstep := buildStep_inv lines tokens acc ln h1 h2
    exact ih (buildStep lines tokens acc ln) hstep.1 hstep.2

/-- Claim C5: for every logical line built by `check_logical`, the recorded
segments are monotone in `offset_in_logical` (weakly increasing, so adjacent
segment extents never overlap), every segment offset lies inside the logical
string, and the logical line's `indent_level` is the `original_indent_width`
of its first segment. -/
theorem c5_segment_invariants (lines : List (List Char)) (tokens : List Token)
    (startLine endLine : Nat) :
    List.Chain' (fun a b => a.1 ≤ b.1) (buildLogical lines tokens startLine endLine).1 ∧
    (buildLogical lines tokens startLine endLine).1.all
      (fun x => decide (x.1 ≤ (buildLogical lines tokens startLine endLine).2.length)) =
      true ∧
    indent_level_of lines tokens startLine endLine =
      ((buildLogical lines tokens startLine endLine).1.headD (0, 0, 0)).2.2 := by
  refine ⟨?_, ?_, rfl⟩
  · exact (buildFold_inv lines tokens _ ([], []) (List.chain'_nil) (by simp)).1
  · exact List.all_eq_true.mpr fun x hx =>
      decide_eq_true ((buildFold_inv lines tokens _ ([], []) (List.chain'_nil)
        (by simp)).2 x hx)

/-- The bracket-depth update splits off its contribution. -/
theorem opAdjust_shift (d : Int) (t : Token) :
    opAdjust d t = d + opAdjust 0 t := by
  simp only [opAdjust]
  split_ifs <;> omega

/-- A token that is not an operator leaves the bracket depth unchanged. -/
theorem opAdjust_not_op (d : Int) (t : Token) (h : t.type ≠ TokType.OP) :
    opAdjust d t = d := by
  simp only [opAdjust]
  rw [if_neg, if_neg] <;> rintro ⟨hOP, _⟩ <;> exact h hOP

/-- Folding the depth update from any base depth. -/
theorem foldl_opAdjust (l : List Token) :
    ∀ a : Int, l.foldl opAdjust a = a + tokDepth l := by
  induction l with
  | nil => intro a; simp [tokDepth]
  | cons t rest ih =>
    intro a
    show rest.foldl opAdjust (opAdjust a t) = a + tokDepth (t :: rest)
    have h2 : tokDepth (t :: rest) = opAdjust 0 t + tokDepth rest := by
      show rest.foldl opAdjust (opAdjust 0 t) = _
      rw [ih (opAdjust 0 t)]
    rw [ih (opAdjust a t), h2, opAdjust_shift a t]
    omega

/-- Depth of a token prepended to a sequence. -/
theorem tokDepth_cons (t : Token) (l : List Token) :
    tokDepth (t :: l) = opAdjust 0 t + tokDepth l := by
  show l.foldl opAdjust (opAdjust 0 t) = _
  rw [foldl_opAdjust l (opAdjust 0 t)]

/-- Right-stripping does not change the leading run of `p`-characters,
unless it consumes the whole string. -/
theorem takeWhile_rstripBy (p : Char → Bool) (l : List Char)
    (h : rstripBy p l ≠ []) :
    (rstripBy p l).takeWhile p = l.takeWhile p := by
  induction l with
  | nil => rfl
  | cons c t ih =>
    rw [rstripBy] at h ⊢
    split at h
    · exact absurd rfl h
    · next hcond =>
      rw [if_neg hcond]
      by_cases hpc : p c = true
      · have hr : rstripBy p t ≠ [] := fun he => hcond ⟨he, hpc⟩
        simp only [List.takeWhile_cons, hpc, if_true]
        rw [ih hr]
      · have hf : p c = false := by revert hpc; cases p c <;> simp
        simp [List.takeWhile_cons, hf]

/-- The build loop only ever appends to the mapping and to the logical
string. -/
theorem buildFold_appends (lines : List (List Char)) (tokens : List Token) :
    ∀ (L : List Nat) (acc : List (Nat × Nat × Nat) × List Char),
      ∃ d1 d2, L.foldl (buildStep lines tokens) acc = (acc.1 ++ d1, acc.2 ++ d2) := by
  intro L
  induction L with
  | nil => exact fun acc => ⟨[], [], by simp⟩
  | cons ln rest ih =>
    intro acc
    have hstep : ∃ e1 e2, buildStep lines tokens acc ln = (acc.1 ++ e1, acc.2 ++ e2) := by
      simp only [buildStep]
      split
      · split
        · simp only [List.append_assoc]
          exact ⟨_, _, rfl⟩
        · exact ⟨_, _, rfl⟩
      · exact ⟨[], [], by simp⟩
    obtain ⟨e1, e2, he⟩ := hstep
    obtain ⟨d1, d2, hd⟩ := ih (buildStep lines tokens acc ln)
    refine ⟨e1 ++ d1, e2 ++ d2, ?_⟩
    show (rest.foldl (buildStep lines tokens) (buildStep lines tokens acc ln)) = _
    rw [hd, he]
    simp

/-- While no NEWLINE token sits at total bracket depth zero, the token loop
of `check_all` only accumulates: no statement is flushed, the pending start
survives, and the depth adds up. -/
theorem splitFold_no_boundary (p : Nat × Nat) (ts : List Token) :
    ∀ st : SplitSt, st.start = some p →
      (∀ i, i < ts.length → (ts.getD i dummyTok).type = TokType.NEWLINE →
        st.parens + tokDepth (ts.take i) ≠ 0) →
      ts.foldl splitStep st =
        ⟨some p, st.toks ++ ts, st.parens + tokDepth ts, st.stmts⟩ := by
  induction ts with
  | nil =>
    intro st hs _
    obtain ⟨s0, tk, pr, sm⟩ := st
    simp only at hs
    subst hs
    simp [tokDepth]
  | cons t rest ih =>
    intro st hs hno
    have hnb : ¬(t.type = TokType.NEWLINE ∧ opAdjust st.parens t = 0) := by
      rintro ⟨hN, hz⟩
      have hne := hno 0 (by simp) (by simpa using hN)
      simp [tokDepth] at hne
      have hkeep : opAdjust st.parens t = st.parens :=
        opAdjust_not_op st.parens t (by rw [hN]; intro hc; exact TokType.noConfusion hc)
      omega
    have hstep : splitStep st t = ⟨some p, st.toks ++ [t], opAdjust st.parens t, st.stmts⟩ := by
      simp only [splitStep, hs]
      rw [if_neg hnb]
    have hshift : ∀ i, i < rest.length →
        (rest.getD i dummyTok).type = TokType.NEWLINE →
        opAdjust st.parens t + tokDepth (rest.take i) ≠ 0 := by
      intro i hi hNi
      have hh := hno (i + 1) (by simpa using Nat.succ_lt_succ hi) (by simpa using hNi)
      rw [List.take_succ_cons, tokDepth_cons] at hh
      rw [opAdjust_shift]
      omega
    rw [List.foldl_cons, hstep,
      ih ⟨some p, st.toks ++ [t], opAdjust st.parens t, st.stmts⟩ rfl hshift]
    have htoks : (st.toks ++ [t]) ++ rest = st.toks ++ t :: rest := by simp
    have hpar : opAdjust st.parens t + tokDepth rest = st.parens + tokDepth (t :: rest) := by
      rw [tokDepth_cons, opAdjust_shift]
      omega
    rw [htoks, hpar]

/-- No NEWLINE token of the sequence sits at total bracket depth zero. -/
def noInnerNewline (ts : List Token) : Bool :=
  (List.range ts.length).all (fun i =>
    decide ((ts.getD i dummyTok).type = TokType.NEWLINE → tokDepth (ts.take i) ≠ 0))

/-- Propositional reading of `noInnerNewline`. -/
theorem noInnerNewline_spec (ts : List Token) (h : noInnerNewline ts = true) :
    ∀ i, i < ts.length → (ts.getD i dummyTok).type = TokType.NEWLINE →
      tokDepth (ts.take i) ≠ 0 := by
  intro i hi
  exact of_decide_eq_true (List.all_eq_true.mp h i (List.mem_range.mpr hi))

/-- A token stream whose inner NEWLINE tokens all sit at bracket depth
greater than zero, closed by one NEWLINE at depth zero, is flushed by
`check_all` as exactly one statement spanning the whole stream. -/
theorem statements_single_stmt (ts' : List Token) (tN : Token)
    (hne : ts' ≠ [])
    (hN : tN.type = TokType.NEWLINE)
    (hmid : noInnerNewline ts' = true)
    (hdep : tokDepth ts' = 0) :
    statements (ts' ++ [tN]) =
      [⟨(ts'.headD dummyTok).startLine, (ts'.headD dummyTok).startCol,
        tN.endLine, tN.endCol, ts' ++ [tN]⟩] := by
  obtain ⟨t0, rest, rfl⟩ := List.exists_cons_of_ne_nil hne
  have hmid' := noInnerNewline_spec _ hmid
  have ht0 : t0.type ≠ TokType.NEWLINE := by
    intro hT
    have := hmid' 0 (by simp) (by simpa using hT)
    simp [tokDepth] at this
  have hstep0 : splitStep splitInit t0 =
      ⟨some (t0.startLine, t0.startCol), [t0], opAdjust 0 t0, []⟩ := by
    simp only [splitStep, splitInit]
    rw [if_neg]
    · simp
    · rintro ⟨hT, _⟩
      exact ht0 hT
  have hmidrest : ∀ i, i < rest.length →
      (rest.getD i dummyTok).type = TokType.NEWLINE →
      opAdjust 0 t0 + tokDepth (rest.take i) ≠ 0 := by
    intro i hi hNi
    have hh := hmid' (i + 1) (by simpa using Nat.succ_lt_succ hi) (by simpa using hNi)
    rw [List.take_succ_cons, tokDepth_cons] at hh
    exact hh
  have hparfin : opAdjust 0 t0 + tokDepth rest = 0 := by
    rw [tokDepth_cons] at hdep
    omega
  show (((t0 :: rest) ++ [tN]).foldl splitStep splitInit).stmts = _
  rw [List.cons_append, List.foldl_cons, hstep0, List.foldl_append,
    splitFold_no_boundary (t0.startLine, t0.startCol) rest
      ⟨some (t0.startLine, t0.startCol), [t0], opAdjust 0 t0, []⟩ rfl hmidrest]
  have hadjN : opAdjust (opAdjust 0 t0 + tokDepth rest) tN = 0 := by
    rw [opAdjust_not_op _ tN (by rw [hN]; intro hc; exact TokType.noConfusion hc), hparfin]
  simp only [List.foldl_cons, List.foldl_nil, splitStep]
  rw [if_pos ⟨hN, hadjN⟩]
  simp

/-- Subtracting the left-stripped length leaves the leading-whitespace width. -/
theorem length_sub_dropWhile (p : Char → Bool) (l : List Char) :
    l.length - (l.dropWhile p).length = (l.takeWhile p).length := by
  have h := congrArg List.length (List.takeWhile_append_dropWhile (p := p) (l := l))
  rw [List.length_append] at h
  omega

/-- When the statement's first physical line survives right-stripping and
muting non-empty, it contributes the first segment
`(0, startLine, leading-whitespace width)` of the logical line. -/
theorem buildLogical_head (lines : List (List Char)) (tokens : List Token)
    (s e : Nat) (hse : s ≤ e)
    (hfirst : muteLine (rstripBy isPySpace (lines.getD (s - 1) [])) s tokens ≠ []) :
    (buildLogical lines tokens s e).1.headD (0, 0, 0) =
      (0, s,
        (muteLine (rstripBy isPySpace (lines.getD (s - 1) [])) s tokens).length -
        ((muteLine (rstripBy isPySpace (lines.getD (s - 1) [])) s tokens).dropWhile
          isPySpace).length) := by
  unfold buildLogical
  have hn : e + 1 - s = (e - s) + 1 := by omega
  rw [hn, List.range'_succ s (e - s) 1, List.foldl_cons]
  obtain ⟨d1, d2, hd⟩ := buildFold_appends lines tokens (List.range' (s + 1) (e - s))
    (buildStep lines tokens ([], []) s)
  rw [hd]
  have h1 : (buildStep lines tokens ([], []) s).1 =
      [(0, s,
        (muteLine (rstripBy isPySpace (lines.getD (s - 1) [])) s tokens).length -
        ((muteLine (rstripBy isPySpace (lines.getD (s - 1) [])) s tokens).dropWhile
          isPySpace).length)] := by
    simp only [buildStep]
    rw [if_pos hfirst]
    simp
  rw [h1]
  simp

/-- Claim C7: for a statement whose inner NEWLINE tokens all occur at
bracket depth greater than zero (the physical newlines are continuations)
and which is closed by one NEWLINE at depth zero, `check_all` flushes
exactly one statement covering the whole token stream, and the resulting
logical line's `indent_level` equals the leading-whitespace width of the
statement's first physical line (assuming that line is muting-neutral and
non-blank). -/
theorem c7_bracket_continuation (lines : List (List Char)) (ts' : List Token)
    (tN : Token)
    (hne : ts' ≠ [])
    (hN : tN.type = TokType.NEWLINE)
    (hmid : noInnerNewline ts' = true)
    (hdep : tokDepth ts' = 0)
    (hle : (ts'.headD dummyTok).startLine ≤ tN.endLine)
    (hfirst : rstripBy isPySpace
      (lines.getD ((ts'.headD dummyTok).startLine - 1) []) ≠ [])
    (hmute : muteLine
        (rstripBy isPySpace (lines.getD ((ts'.headD dummyTok).startLine - 1) []))
        (ts'.headD dummyTok).startLine (ts' ++ [tN]) =
        rstripBy isPySpace (lines.getD ((ts'.headD dummyTok).startLine - 1) [])) :
    statements (ts' ++ [tN]) =
      [⟨(ts'.headD dummyTok).startLine, (ts'.headD dummyTok).startCol,
        tN.endLine, tN.endCol, ts' ++ [tN]⟩] ∧
    indent_level_of lines (ts' ++ [tN]) (ts'.headD dummyTok).startLine tN.endLine =
      leadingWS (lines.getD ((ts'.headD dummyTok).startLine - 1) []) := by
  refine ⟨statements_single_stmt ts' tN hne hN hmid hdep, ?_⟩
  have hfirst' : muteLine
      (rstripBy isPySpace (lines.getD ((ts'.headD dummyTok).startLine - 1) []))
      (ts'.headD dummyTok).startLine (ts' ++ [tN]) ≠ [] := by
    rw [hmute]
    exact hfirst
  unfold indent_level_of
  rw [buildLogical_head lines (ts' ++ [tN]) (ts'.headD dummyTok).startLine
    tN.endLine hle hfirst']
  rw [hmute, length_sub_dropWhile isPySpace]
  unfold leadingWS
  rw [takeWhile_rstripBy isPySpace _ hfirst]

/-- First physical line of the C7 witness statement. -/
def c7lines : List (List Char) :=
  [chars "    x = (1,\n", chars "         2)\n"]

/-- Tokens of the C7 witness statement up to (excluding) the closing
NEWLINE: a bracketed expression continued over two physical lines, with an
NL token (not NEWLINE) inside the brackets. -/
def c7toks : List Token :=
  [⟨TokType.NAME, chars "x", 1, 4, 1, 5⟩,
   ⟨TokType.OP, chars "=", 1, 6, 1, 7⟩,
   ⟨TokType.OP, chars "(", 1, 8, 1, 9⟩,
   ⟨TokType.NUMBER, chars "1", 1, 9, 1, 10⟩,
   ⟨TokType.OP, chars ",", 1, 10, 1, 11⟩,
   ⟨TokType.NL, chars "\n", 1, 11, 1, 12⟩,
   ⟨TokType.NUMBER, chars "2", 2, 9, 2, 10⟩,
   ⟨TokType.OP, chars ")", 2, 10, 2, 11⟩]

/-- The closing NEWLINE token of the C7 witness statement. -/
def c7newline : Token := ⟨TokType.NEWLINE, chars "\n", 2, 11, 2, 12⟩

/-- Witness for C7: the two-line bracketed statement is flushed as one
statement spanning both lines, with `indent_level` 4, the first line's
leading-whitespace width. -/
theorem c7_bracket_continuation_witness :
    noInnerNewline c7toks = true ∧ tokDepth c7toks = 0 ∧
    (statements (c7toks ++ [c7newline]) =
      [⟨1, 4, 2, 12, c7toks ++ [c7newline]⟩] ∧
     indent_level_of c7lines (c7toks ++ [c7newline]) 1 2 =
      leadingWS (c7lines.getD 0 [])) ∧
    leadingWS (c7lines.getD 0 []) = 4 :=
  ⟨by decide, by decide,
   c7_bracket_continuation c7lines c7toks c7newline (by decide) (by decide)
     (by decide) (by decide) (by decide) (by decide) (by decide),
   by decide⟩
